import Mathlib

/-!
Verification of the FreeWill tensor/kernel core against its specification.

The development shallowly embeds three source files:

* `FreeWill/Operator/CrossEntropy_CUDA.cu` — the binary cross-entropy cost
  kernel (`crossEntropy` device kernel and its `crossEntropyCUDAKernel` host
  launcher).
* `GradientCheck.h` — the central-difference gradient-check oracle
  (`gradientCheck`).
* `Tensor.h` — the device tensor (`Tensor`, `TensorBase`) together with the
  cuDNN descriptor computation `updateGPUTensorDescriptor`.

Floating-point scalars are embedded as real numbers (for the kernel, whose
body uses `log`) or as an arbitrary linear ordered field (for the template
code, which is polymorphic in its scalar type), following the usual
idealisation of floating arithmetic by exact field arithmetic.

`Shape.h` and `ReferenceCountedBlob.h` are not among the sources; the parts
of their behaviour that `Tensor.h` depends on (`Shape::size`,
`ReferenceCountedBlob`'s reference-counted allocation) are modelled from the
specification and are marked as such in their doc comments.
-/

namespace FreeWill

/-! ## Cross-entropy kernel (CrossEntropy_CUDA.cu) -/

/-- Grid size chosen by the host launcher `crossEntropyCUDAKernel`:
`gridSize = N / 1024`, incremented by one when `N % 1024 ≠ 0`, where
`N = labelSize * batchSize` and the block size is 1024. -/
def crossEntropyGridSize (labelSize batchSize : ℕ) : ℕ :=
  labelSize * batchSize / 1024 + if labelSize * batchSize % 1024 ≠ 0 then 1 else 0

/-- Body of one device thread of the `crossEntropy` kernel: thread `tid`
computes `idInVector = tid % labelSize`, `batchId = tid / labelSize` and the
binary cross-entropy term read at flat index `batchId * labelSize + idInVector`.
Device memory is idealised as a total function `ℕ → ℝ`. -/
noncomputable def crossEntropyThreadTemp (input label : ℕ → ℝ) (labelSize tid : ℕ) : ℝ :=
  let idInVector := tid % labelSize
  let batchId := tid / labelSize
  (-label (batchId * labelSize + idInVector))
      * Real.log (input (batchId * labelSize + idInVector))
    - (1 - label (batchId * labelSize + idInVector))
      * Real.log (1 - input (batchId * labelSize + idInVector))

/-- The host launcher `crossEntropyCUDAKernel` over idealised flat device
memory: it `cudaMemset`s the first `batchSize` slots of `cost` to zero and
then launches `crossEntropyGridSize * 1024` threads, each atomically adding
its term into `cost[batchId]`.  Atomic-add accumulation is order-insensitive
over ℝ, so the final content of slot `b` is the memset value plus the sum of
the contributions of the threads whose `batchId` is `b`. -/
noncomputable def crossEntropyCUDAKernelMem (input label cost : ℕ → ℝ)
    (labelSize batchSize : ℕ) : ℕ → ℝ :=
  fun b =>
    (if b < batchSize then 0 else cost b) +
      ∑ tid ∈ Finset.range (crossEntropyGridSize labelSize batchSize * 1024),
        if tid / labelSize = b then crossEntropyThreadTemp input label labelSize tid else 0

/-- Bounds-checked sequential execution of the threads of the `crossEntropy`
kernel over arrays embedded as lists: thread `tid` reads
`input[batchId*labelSize + idInVector]` and `label[...]` and accumulates into
`cost[batchId]`; any access outside the lists yields `none`.  `log` is an
arbitrary function parameter (its values are irrelevant to memory safety). -/
def crossEntropyRunThreads {K : Type} [CommRing K] (log : K → K)
    (input label : List K) (labelSize : ℕ) :
    ℕ → ℕ → List K → Option (List K)
  | _, 0, cost => some cost
  | tid, count + 1, cost =>
    let idInVector := tid % labelSize
    let batchId := tid / labelSize
    match input[batchId * labelSize + idInVector]?,
          label[batchId * labelSize + idInVector]?,
          cost[batchId]? with
    | some iv, some lv, some cv =>
      crossEntropyRunThreads log input label labelSize (tid + 1) count
        (cost.set batchId (cv + (-lv * log iv - (1 - lv) * log (1 - iv))))
    | _, _, _ => none

/-- Bounds-checked model of the full `crossEntropyCUDAKernel` launch: memset
of the `batchSize`-element cost array to zero followed by
`crossEntropyGridSize * 1024` threads. -/
def crossEntropyCUDAKernelChecked {K : Type} [CommRing K] (log : K → K)
    (input label : List K) (labelSize batchSize : ℕ) : Option (List K) :=
  crossEntropyRunThreads log input label labelSize 0
    (crossEntropyGridSize labelSize batchSize * 1024)
    (List.replicate batchSize 0)

/-! ## Gradient check (GradientCheck.h) -/

/-- The loop of `gradientCheck`, embedded with explicit state for the work
vectors `x_1` and `x_2` (which the source perturbs at coordinate `i` and then
restores after the check).  `func` returns the pair (value, gradient); the
gradient written through the output parameter at the perturbed points is
discarded, exactly as in the source.  Fuel `x.length - i` drives the
structural recursion of the `for` loop. -/
def gradientCheckLoop {K : Type} [LinearOrderedField K]
    (func : List K → K × List K) (x : List K) (ε : K) (g : List K) :
    ℕ → ℕ → List K → List K → Bool
  | 0, _, _, _ => true
  | fuel + 1, i, x1, x2 =>
    if i < x.length then
      let x1' := x1.set i (x.getD i 0 - ε)
      let x2' := x2.set i (x.getD i 0 + ε)
      let valueAtX1 := (func x1').1
      let valueAtX2 := (func x2').1
      let numgrad := (valueAtX2 - valueAtX1) / (2 * ε)
      let reldiff := |numgrad - g.getD i 0| / max 1 (max |numgrad| |g.getD i 0|)
      if reldiff > ε * (1 / 10) then false
      else
        gradientCheckLoop func x ε g fuel (i + 1)
          (x1'.set i (x.getD i 0)) (x2'.set i (x.getD i 0))
    else true

/-- `gradientCheck(func, x, epsilon)` from GradientCheck.h: evaluate the
analytic gradient once at the unperturbed `x`, then check each coordinate
with the loop, starting from work vectors `x_1 = x_2 = x`. -/
def gradientCheck {K : Type} [LinearOrderedField K]
    (func : List K → K × List K) (x : List K) (ε : K) : Bool :=
  gradientCheckLoop func x ε (func x).2 x.length 0 x x

/-- The specification's per-coordinate pass condition (stated from the claim,
for comparison with the loop): the relative error between the
central-difference estimate at `x` perturbed only in coordinate `i` and the
analytic gradient entry `g[i]` is at most `ε * 0.1`. -/
def gradientCheckPass {K : Type} [LinearOrderedField K]
    (func : List K → K × List K) (x : List K) (ε : K) (g : List K) (i : ℕ) : Prop :=
  |((func (x.set i (x.getD i 0 + ε))).1 - (func (x.set i (x.getD i 0 - ε))).1) / (2 * ε)
      - g.getD i 0|
    / max 1 (max |((func (x.set i (x.getD i 0 + ε))).1
          - (func (x.set i (x.getD i 0 - ε))).1) / (2 * ε)| |g.getD i 0|)
    ≤ ε * (1 / 10)

/-! ## GPU tensor descriptor computation (Tensor.h, `updateGPUTensorDescriptor`) -/

/-- `atLeastDims = nbDims < 4 ? 4 : nbDims`. -/
def atLeastDims (nbDims : ℕ) : ℕ := if nbDims < 4 then 4 else nbDims

/-- One iteration `i` of the descriptor loop of
`Tensor::updateGPUTensorDescriptor`.  The arrays `dimA`/`strideA` (allocated
with `new int[atLeastDims]`, hence initially uninitialised) are embedded as
lists of `Option ℤ` with `none` for an uninitialised slot; every read is
bounds-checked, so the out-of-bounds read `strideA[A - i]` with `i = 0` and
an empty shape surfaces as `none`. -/
def descStep (shape : List ℕ) (A i : ℕ) (dimA strideA : List (Option ℤ)) :
    Option (List (Option ℤ) × List (Option ℤ)) :=
  if i < shape.length then
    if i = 0 then
      some (dimA.set (A - i - 1) (some (shape.getD i 0 : ℤ)), strideA.set (A - 1) (some 1))
    else
      match strideA[A - i]? with
      | some (some s) =>
        some (dimA.set (A - i - 1) (some (shape.getD i 0 : ℤ)),
          strideA.set (A - 1 - i) (some ((shape.getD (i - 1) 0 : ℤ) * s)))
      | _ => none
  else
    match strideA[A - i]? with
    | some (some s) =>
      some (dimA.set (A - i - 1) (some 1), strideA.set (A - 1 - i) (some s))
    | _ => none

/-- The descriptor loop `for (i = 0; i < atLeastDims; ++i)`, with fuel equal
to the number of remaining iterations. -/
def descLoop (shape : List ℕ) (A : ℕ) :
    ℕ → ℕ → List (Option ℤ) → List (Option ℤ) →
      Option (List (Option ℤ) × List (Option ℤ))
  | 0, _, dimA, strideA => some (dimA, strideA)
  | fuel + 1, i, dimA, strideA =>
    match descStep shape A i dimA strideA with
    | none => none
    | some r => descLoop shape A fuel (i + 1) r.1 r.2

/-- Collects a fully initialised array; `none` if some slot was never
written (passing such a slot to `cudnnSetTensorNdDescriptor` would transmit
indeterminate memory). -/
def allSome : List (Option ℤ) → Option (List ℤ)
  | [] => some []
  | none :: _ => none
  | some v :: rest => (allSome rest).map (fun l => v :: l)

/-- The pure descriptor computation performed by
`Tensor::updateGPUTensorDescriptor` on a shape with extents `shape`
(`d0` fastest-varying): the `dimA`/`strideA` arrays of length
`atLeastDims shape.length` that the source passes to
`cudnnSetTensorNdDescriptor`, or `none` if the computation performs an
out-of-bounds or uninitialised read. -/
def computeGPUTensorDescriptor (shape : List ℕ) : Option (List ℤ × List ℤ) :=
  (descLoop shape (atLeastDims shape.length) (atLeastDims shape.length) 0
      (List.replicate (atLeastDims shape.length) none)
      (List.replicate (atLeastDims shape.length) none)).bind
    fun r => (allSome r.1).bind fun d => (allSome r.2).map fun s => (d, s)

/-- Stride of logical dimension `i` as the specification words it: the
row-major cumulative product `d0 * ... * d(i-1)` (so stride of dimension 0
is the empty product 1). -/
def specStride (shape : List ℕ) (i : ℕ) : ℤ := ((shape.take i).prod : ℤ)

/-- The claim's extent array: `max(n,4)` entries in reversed
(slowest-varying first) order, padded slots first with extent 1. -/
def specDimA (shape : List ℕ) : List ℤ :=
  List.replicate (atLeastDims shape.length - shape.length) 1
    ++ (shape.map (fun d : ℕ => (d : ℤ))).reverse

/-- The claim's stride array: reversed order, padded slots carrying the
stride of logical dimension `n-1`. -/
def specStrideA (shape : List ℕ) : List ℤ :=
  List.replicate (atLeastDims shape.length - shape.length)
      (specStride shape (shape.length - 1))
    ++ ((List.range shape.length).map (specStride shape)).reverse

/-- Value held by `dimA` for loop index `i`: `shape[i]` for a real
dimension, 1 for a padded one. -/
def dval (shape : List ℕ) (i : ℕ) : ℤ :=
  if i < shape.length then (shape.getD i 0 : ℤ) else 1

/-- Value held by `strideA` for loop index `i`: `specStride i` for a real
dimension, the stride of the last real dimension for a padded one. -/
def sval (shape : List ℕ) (i : ℕ) : ℤ := specStride shape (min i (shape.length - 1))

/-- State of the `dimA` array after `k` iterations of the descriptor loop:
a prefix of untouched slots followed by the written suffix in reversed
order. -/
def descDimState (shape : List ℕ) (A k : ℕ) : List (Option ℤ) :=
  List.replicate (A - k) none ++ ((List.range k).map (fun j => some (dval shape j))).reverse

/-- State of the `strideA` array after `k` iterations of the descriptor
loop. -/
def descStrideState (shape : List ℕ) (A k : ℕ) : List (Option ℤ) :=
  List.replicate (A - k) none ++ ((List.range k).map (fun j => some (sval shape j))).reverse

/-! ## Shape, reference-counted storage and the tensor object (Tensor.h) -/

/-- Modelled from the spec: `Shape::size()` (Shape.h is not among the
sources) — the product of the extents, 0 when the extent sequence is empty
(and hence 0 whenever any extent is 0). -/
def Shape.size (dims : List ℕ) : ℕ := if dims = [] then 0 else dims.prod

/-- A storage cell of the reference-counted blob heap: a reference count and
the host-resident contents, `none` marking an uninitialised element. -/
structure BlobCell (α : Type) where
  refCount : ℕ
  data : List (Option α)
  deriving DecidableEq

/-- Modelled from the spec: a `ReferenceCountedBlob` handle
(ReferenceCountedBlob.h is not among the sources) — either detached or a
reference to a heap cell. -/
structure ReferenceCountedBlob where
  cellId : Option ℕ
  deriving DecidableEq

/-- The heap of blob cells; a freed cell becomes `none`. -/
structure BlobHeap (α : Type) where
  cells : List (Option (BlobCell α))
  deriving DecidableEq

/-- The live cell a blob handle refers to, if any (`none` when the handle
is detached, the index is invalid, or the cell has been freed). -/
def BlobHeap.cellAt {α : Type} (h : BlobHeap α) (b : ReferenceCountedBlob) :
    Option (BlobCell α) :=
  b.cellId.bind fun cid => (h.cells[cid]?).bind fun oc => oc

/-- Modelled from the spec: releasing one reference — the count drops by
one and the storage is freed exactly when the last owner releases it. -/
def BlobHeap.release {α : Type} (h : BlobHeap α) (b : ReferenceCountedBlob) : BlobHeap α :=
  match b.cellId, h.cellAt b with
  | some cid, some c =>
    if c.refCount ≤ 1 then ⟨h.cells.set cid none⟩
    else ⟨h.cells.set cid (some ⟨c.refCount - 1, c.data⟩)⟩
  | _, _ => h

/-- Modelled from the spec: acquiring one more reference to the cell a
blob handle aliases (blob copy-construction/assignment). -/
def BlobHeap.retain {α : Type} (h : BlobHeap α) (b : ReferenceCountedBlob) : BlobHeap α :=
  match b.cellId, h.cellAt b with
  | some cid, some c => ⟨h.cells.set cid (some ⟨c.refCount + 1, c.data⟩)⟩
  | _, _ => h

/-- Modelled from the spec: allocation of a fresh cell of `count` elements
(`nBytes` bytes); fails when the byte size is 0 or the underlying allocation
fails (`allocOk = false`), leaving a detached handle. -/
def BlobHeap.allocCell {α : Type} (h : BlobHeap α) (allocOk : Bool) (nBytes count : ℕ) :
    BlobHeap α × ReferenceCountedBlob × Bool :=
  if nBytes ≠ 0 ∧ allocOk = true then
    (⟨h.cells ++ [some ⟨1, List.replicate count none⟩]⟩, ⟨some h.cells.length⟩, true)
  else (h, ⟨none⟩, false)

/-- Modelled from the spec: `ReferenceCountedBlob::alloc` — releases the
prior storage first, then allocates. -/
def blobAlloc {α : Type} (h : BlobHeap α) (old : ReferenceCountedBlob) (allocOk : Bool)
    (nBytes count : ℕ) : BlobHeap α × ReferenceCountedBlob × Bool :=
  BlobHeap.allocCell (h.release old) allocOk nBytes count

/-- Reading one element through a blob handle; `none` when the handle is
detached, the cell is freed, the index is out of range, or the element was
never initialised. -/
def BlobHeap.readCell {α : Type} (h : BlobHeap α) (b : ReferenceCountedBlob) (i : ℕ) :
    Option α :=
  match b.cellId, h.cellAt b with
  | some _, some c => (c.data[i]?).bind fun ov => ov
  | _, _ => none

/-- Writing one element through a blob handle (the unchecked
`operator[]`-reference write; a write through a detached handle or at an
out-of-range index leaves the heap unchanged). -/
def BlobHeap.writeCell {α : Type} (h : BlobHeap α) (b : ReferenceCountedBlob) (i : ℕ)
    (v : α) : BlobHeap α :=
  match b.cellId, h.cellAt b with
  | some cid, some c => ⟨h.cells.set cid (some ⟨c.refCount, c.data.set i (some v)⟩)⟩
  | _, _ => h

/-- The `std::copy` of `Tensor::init(initList)`: overwrite the first
`vals.length` elements of the cell's contents with `vals`. -/
def BlobHeap.writeInitList {α : Type} (h : BlobHeap α) (b : ReferenceCountedBlob)
    (vals : List α) : BlobHeap α :=
  match b.cellId, h.cellAt b with
  | some cid, some c =>
    ⟨h.cells.set cid (some ⟨c.refCount, vals.map some ++ c.data.drop vals.length⟩)⟩
  | _, _ => h

/-- The tensor object: shape extents, display name, blob handle, the
contents last written into its cuDNN tensor descriptor (`none` = created by
`cudnnCreateTensorDescriptor` but never set), and whether the instantiation
targets `DeviceType::GPU_CUDA`. -/
structure Tensor (α : Type) where
  shape : List ℕ
  name : String
  data : ReferenceCountedBlob
  descriptor : Option (List ℤ × List ℤ)
  gpuTarget : Bool
  deriving DecidableEq

/-- The `Tensor(shape, name)` constructor: stores shape and name, default
blob, freshly created (unset) descriptor. -/
def Tensor.make {α : Type} (shape : List ℕ) (name : String) (gpu : Bool) : Tensor α :=
  ⟨shape, name, ⟨none⟩, none, gpu⟩

/-- `Tensor::updateGPUTensorDescriptor()`: recomputes the descriptor from
the current shape, a no-op for non-GPU instantiations (the body is guarded
by `if constexpr (DeviceUsed == DeviceType::GPU_CUDA)`). -/
def Tensor.updateDescriptor {α : Type} (t : Tensor α) : Tensor α :=
  if t.gpuTarget = true then { t with descriptor := computeGPUTensorDescriptor t.shape }
  else t

/-- The tensor copy constructor `Tensor(const Tensor &in)`: aliases the
source blob (one more reference), copies shape and name; the `TensorBase`
constructor creates a fresh descriptor and nothing sets it. -/
def Tensor.copyConstruct {α : Type} (h : BlobHeap α) (t : Tensor α) :
    BlobHeap α × Tensor α :=
  (h.retain t.data, ⟨t.shape, t.name, t.data, none, t.gpuTarget⟩)

/-- `Tensor::operator=`: copies shape, name and blob handle (blob
assignment retains the source cell and releases the destination's old one)
and then calls `updateGPUTensorDescriptor`. -/
def Tensor.assign {α : Type} (h : BlobHeap α) (dst src : Tensor α) :
    BlobHeap α × Tensor α :=
  ((h.retain src.data).release dst.data,
    Tensor.updateDescriptor ⟨src.shape, src.name, src.data, dst.descriptor, dst.gpuTarget⟩)

/-- `Tensor::reshape(newShape)`: succeeds iff the element counts agree, in
which case the shape is replaced and the descriptor recomputed; otherwise
the tensor is left untouched. -/
def Tensor.reshape {α : Type} (t : Tensor α) (newShape : List ℕ) : Bool × Tensor α :=
  if Shape.size newShape = Shape.size t.shape then
    (true, Tensor.updateDescriptor { t with shape := newShape })
  else (false, t)

/-- `Tensor::init()`: `result = false; if (size) result = alloc(size *
sizeof(DataType));` followed by the (GPU-guarded) descriptor update;
returns the allocation result. -/
def Tensor.init {α : Type} (h : BlobHeap α) (t : Tensor α) (allocOk : Bool)
    (elemSize : ℕ) : (BlobHeap α × Tensor α) × Bool :=
  if Shape.size t.shape ≠ 0 then
    let r := blobAlloc h t.data allocOk (Shape.size t.shape * elemSize) (Shape.size t.shape)
    ((r.1, Tensor.updateDescriptor { t with data := r.2.1 }), r.2.2)
  else ((h, t.updateDescriptor), false)

/-- `Tensor::init(initList)`: bail out if `init()` fails, otherwise copy
`min(initList.size(), size)` elements into host storage and (for GPU
targets) push to the device and refresh the descriptor. -/
def Tensor.initWith {α : Type} (h : BlobHeap α) (t : Tensor α) (allocOk : Bool)
    (elemSize : ℕ) (values : List α) : (BlobHeap α × Tensor α) × Bool :=
  let r := Tensor.init h t allocOk elemSize
  if r.2 = false then (r.1, false)
  else
    let size := Shape.size r.1.2.shape
    let count := if values.length > size then size else values.length
    ((BlobHeap.writeInitList r.1.1 r.1.2.data (values.take count),
      r.1.2.updateDescriptor), true)

/-- Reading `tensor[i]` (through the host data handle). -/
def Tensor.get {α : Type} (h : BlobHeap α) (t : Tensor α) (i : ℕ) : Option α :=
  h.readCell t.data i

/-- Writing through the reference returned by `tensor[i]`. -/
def Tensor.put {α : Type} (h : BlobHeap α) (t : Tensor α) (i : ℕ) (v : α) : BlobHeap α :=
  h.writeCell t.data i v

/-- `TensorBase::clear()`: `m_data.clear()` — release this tensor's
reference; the handle becomes detached. -/
def Tensor.clear {α : Type} (h : BlobHeap α) (t : Tensor α) : BlobHeap α × Tensor α :=
  (h.release t.data, { t with data := ⟨none⟩ })

/-- A concrete GPU tensor of shape `[2, 2]` after a successful `init()`,
used by the copy-construction counterexample. -/
def exampleTensorA : Tensor ℕ :=
  (Tensor.init ⟨[]⟩ (Tensor.make [2, 2] "a" true) true 4).1.2

/-- The heap after building `exampleTensorA`. -/
def exampleHeapA : BlobHeap ℕ :=
  (Tensor.init ⟨[]⟩ (Tensor.make [2, 2] "a" true) true 4).1.1

/-! ## Helper lemmas about lists -/

theorem list_set_getD_self {α : Type} (l : List α) (i : ℕ) (d : α) (h : i < l.length) :
    l.set i (l.getD i d) = l := by
  apply List.ext_getElem
  · simp
  · intro n h1 h2
    rw [List.getElem_set]
    by_cases hn : i = n
    · subst hn
      simp [List.getElem?_eq_getElem h2]
    · simp [hn]

theorem list_set_replicate_append {α : Type} (m : ℕ) (a b : α) (t : List α) :
    (List.replicate (m + 1) a ++ t).set m b = List.replicate m a ++ b :: t := by
  induction m with
  | zero => simp
  | succ k ih =>
    rw [List.replicate_succ, List.cons_append, List.set_cons_succ, ih,
      List.replicate_succ, List.cons_append]

theorem range_map_reverse_succ {β : Type} (k : ℕ) (f : ℕ → β) :
    ((List.range (k + 1)).map f).reverse = f k :: ((List.range k).map f).reverse := by
  rw [List.range_succ, List.map_append, List.reverse_append]
  simp

theorem allSome_map_some (l : List ℤ) : allSome (l.map some) = some l := by
  induction l with
  | nil => rfl
  | cons a t ih => simp [allSome, ih]

theorem range_map_getD {α β : Type} (l : List α) (d : α) (f : α → β) :
    (List.range l.length).map (fun i => f (l.getD i d)) = l.map f := by
  apply List.ext_getElem
  · simp
  · intro n h1 h2
    have hn : n < l.length := by simpa using h2
    simp [List.getElem_map, List.getElem_range, List.getElem?_eq_getElem hn]

/-! ## C1: the cross-entropy kernel computes per-batch binary cross-entropy -/

theorem crossEntropyGridSize_mul (labelSize batchSize : ℕ) :
    labelSize * batchSize ≤ crossEntropyGridSize labelSize batchSize * 1024 := by
  unfold crossEntropyGridSize
  split <;> omega

theorem crossEntropyThreadTemp_eq (input label : ℕ → ℝ) (labelSize tid : ℕ) :
    crossEntropyThreadTemp input label labelSize tid =
      (-label tid) * Real.log (input tid) - (1 - label tid) * Real.log (1 - input tid) := by
  have hidx : tid / labelSize * labelSize + tid % labelSize = tid := by
    have h := Nat.div_add_mod tid labelSize
    rw [Nat.mul_comm (tid / labelSize) labelSize]
    exact h
  simp only [crossEntropyThreadTemp]
  rw [hidx]

/-- Claim C1: for arbitrary device memory extending input/label arrays whose
first `labelVectorSize * batchSize` values lie strictly inside `(0,1)`, the
kernel launch first zeroes the cost array (the result is independent of the
prior cost contents) and leaves in `cost[b]`, for every batch `b`, the sum
over `j < labelVectorSize` of
`-label[b*lvs+j]*log(input[b*lvs+j]) - (1-label[b*lvs+j])*log(1-input[b*lvs+j])`. -/
theorem crossEntropy_computeCost (input label cost : ℕ → ℝ) (labelSize batchSize b : ℕ)
    (hb : b < batchSize)
    (hin : ∀ p, p < labelSize * batchSize → 0 < input p ∧ input p < 1) :
    crossEntropyCUDAKernelMem input label cost labelSize batchSize b =
      ∑ j ∈ Finset.range labelSize,
        ((-label (b * labelSize + j)) * Real.log (input (b * labelSize + j))
          - (1 - label (b * labelSize + j)) * Real.log (1 - input (b * labelSize + j))) := by
  simp only [crossEntropyCUDAKernelMem, if_pos hb, zero_add]
  rw [← Finset.sum_filter]
  rcases Nat.eq_zero_or_pos labelSize with hls | hls
  · subst hls
    simp [crossEntropyGridSize]
  · have hfilter :
        (Finset.range (crossEntropyGridSize labelSize batchSize * 1024)).filter
            (fun tid => tid / labelSize = b)
          = Finset.Ico (b * labelSize) (b * labelSize + labelSize) := by
      ext a
      simp only [Finset.mem_filter, Finset.mem_range, Finset.mem_Ico]
      constructor
      · rintro ⟨ha, hdiv⟩
        refine ⟨?_, ?_⟩
        · calc b * labelSize = a / labelSize * labelSize := by rw [hdiv]
            _ ≤ a := Nat.div_mul_le_self a labelSize
        · have h1 := (Nat.div_add_mod a labelSize).symm
          have h2 : a % labelSize < labelSize := Nat.mod_lt _ hls
          calc a = labelSize * (a / labelSize) + a % labelSize := h1
            _ < labelSize * b + labelSize := by
                rw [hdiv]; exact Nat.add_lt_add_left h2 _
            _ = b * labelSize + labelSize := by rw [Nat.mul_comm]
      · rintro ⟨hlo, hhi⟩
        have hdiv : a / labelSize = b :=
          Nat.div_eq_of_lt_le hlo (by rw [Nat.succ_mul]; exact hhi)
        refine ⟨?_, hdiv⟩
        calc a < b * labelSize + labelSize := hhi
          _ = (b + 1) * labelSize := (Nat.succ_mul b labelSize).symm
          _ ≤ batchSize * labelSize := Nat.mul_le_mul_right _ hb
          _ = labelSize * batchSize := Nat.mul_comm _ _
          _ ≤ crossEntropyGridSize labelSize batchSize * 1024 :=
              crossEntropyGridSize_mul _ _
    rw [hfilter, Finset.sum_Ico_eq_sum_range, Nat.add_sub_cancel_left]
    exact Finset.sum_congr rfl fun j _ => crossEntropyThreadTemp_eq input label labelSize _

/-- Witness for C1 at the spec's concrete instance: `labelVectorSize = 1`,
`batchSize = 3`, `input = [0.5, 0.5, 0.5]`, `label = [1, 0, 1]` (with
arbitrary nonzero prior cost contents) gives
`cost = [-log 0.5, -log 0.5, -log 0.5]`. -/
theorem crossEntropy_computeCost_witness :
    crossEntropyCUDAKernelMem (fun _ => (1 : ℝ) / 2) (fun p => if p = 1 then 0 else 1)
        (fun _ => 5) 1 3 0 = -Real.log ((1 : ℝ) / 2) ∧
      crossEntropyCUDAKernelMem (fun _ => (1 : ℝ) / 2) (fun p => if p = 1 then 0 else 1)
        (fun _ => 5) 1 3 1 = -Real.log ((1 : ℝ) / 2) ∧
      crossEntropyCUDAKernelMem (fun _ => (1 : ℝ) / 2) (fun p => if p = 1 then 0 else 1)
        (fun _ => 5) 1 3 2 = -Real.log ((1 : ℝ) / 2) := by
  refine ⟨?_, ?_, ?_⟩ <;>
  · rw [crossEntropy_computeCost (fun _ => (1 : ℝ) / 2) (fun p => if p = 1 then 0 else 1)
      (fun _ => 5) 1 3 _ (by norm_num) (fun p _ => by norm_num)]
    norm_num [Finset.sum_range_one]

/-! ## C2: the gradient check accepts iff every coordinate passes -/

theorem gradientCheckLoop_iff {K : Type} [LinearOrderedField K]
    (func : List K → K × List K) (x : List K) (ε : K) (g : List K) :
    ∀ fuel i, fuel + i = x.length →
      (gradientCheckLoop func x ε g fuel i x x = true ↔
        ∀ j, i ≤ j → j < x.length → gradientCheckPass func x ε g j) := by
  intro fuel
  induction fuel with
  | zero =>
    intro i hi
    constructor
    · intro _ j h1 h2
      exact absurd h2 (by omega)
    · intro _
      rfl
  | succ fuel ih =>
    intro i hi
    have hilt : i < x.length := by omega
    rw [gradientCheckLoop]
    rw [if_pos hilt]
    set v1 := (func (x.set i (x.getD i 0 - ε))).1 with hv1
    set v2 := (func (x.set i (x.getD i 0 + ε))).1 with hv2
    set numgrad := (v2 - v1) / (2 * ε) with hng
    set reldiff := |numgrad - g.getD i 0| / max 1 (max |numgrad| |g.getD i 0|) with hrd
    have hpassi : gradientCheckPass func x ε g i ↔ reldiff ≤ ε * (1 / 10) := Iff.rfl
    by_cases hfail : reldiff > ε * (1 / 10)
    · rw [if_pos hfail]
      constructor
      · intro hcontr
        exact (Bool.false_ne_true hcontr).elim
      · intro hall
        exact absurd (hpassi.mp (hall i le_rfl hilt)) (not_le.mpr hfail)
    · rw [if_neg hfail]
      have hrestore : (x.set i (x.getD i 0 - ε)).set i (x.getD i 0) = x := by
        rw [List.set_set]
        exact list_set_getD_self x i 0 hilt
      have hrestore2 : (x.set i (x.getD i 0 + ε)).set i (x.getD i 0) = x := by
        rw [List.set_set]
        exact list_set_getD_self x i 0 hilt
      rw [hrestore, hrestore2]
      rw [ih (i + 1) (by omega)]
      constructor
      · intro hall j hij hjl
        rcases Nat.eq_or_lt_of_le hij with hji | hji
        · subst hji
          exact hpassi.mpr (not_lt.mp hfail)
        · exact hall j hji hjl
      · intro hall j hij hjl
        exact hall j (by omega) hjl

/-- Claim C2: `gradientCheck(f, x, epsilon)` returns true iff for every
coordinate `i` of `x` the relative error between the central-difference
estimate (computed from `f` at `x` with only coordinate `i` perturbed by
`±epsilon`) and the analytic gradient entry written by `f` at the
unperturbed `x` is at most `epsilon * 0.1` — in particular, perturbations
are local and do not accumulate across coordinates, each coordinate being
restored after its test. -/
theorem gradientCheck_iff {K : Type} [LinearOrderedField K]
    (func : List K → K × List K) (x : List K) (ε : K) :
    gradientCheck func x ε = true ↔
      ∀ i, i < x.length → gradientCheckPass func x ε (func x).2 i := by
  have h := gradientCheckLoop_iff func x ε (func x).2 x.length 0 (by omega)
  simp only [gradientCheck, h]
  exact ⟨fun hall i hi => hall i (Nat.zero_le i) hi, fun hall j _ hj => hall j hj⟩

/-! ## C3: the kernel launch reads past the arrays when N is not a
multiple of 1024 (missing bounds guard) -/

/-- Claim C3 (refuted; the code lacks an `if (id < N)` guard): at
`labelVectorSize = 1`, `batchSize = 3` the launcher starts
`ceil(3/1024) * 1024 = 1024` threads and thread 3 already reads
`input[3]` on the 3-element input array, so the bounds-checked execution
of the launch aborts with `none` instead of completing. -/
theorem crossEntropyKernelChecked_oob :
    crossEntropyCUDAKernelChecked (fun y => y) [(1 : ℚ) / 2, 1 / 2, 1 / 2] [1, 0, 1] 1 3
      = none := by
  rfl

/-! ## C4/C10: the GPU descriptor computation -/

theorem atLeastDims_ge (n : ℕ) : n ≤ atLeastDims n ∧ 4 ≤ atLeastDims n := by
  unfold atLeastDims
  split <;> omega

theorem sval_zero (shape : List ℕ) : sval shape 0 = 1 := by
  simp [sval, specStride]

theorem sval_succ_lt (shape : List ℕ) (j : ℕ) (hj : j + 1 < shape.length) :
    (shape.getD j 0 : ℤ) * sval shape j = sval shape (j + 1) := by
  have h1 : min j (shape.length - 1) = j := by omega
  have h2 : min (j + 1) (shape.length - 1) = j + 1 := by omega
  have hjl : j < shape.length := by omega
  rw [sval, sval, h1, h2, specStride, specStride, List.prod_take_succ shape j hjl]
  rw [List.getD_eq_getElem shape 0 hjl]
  push_cast
  ring

theorem sval_succ_ge (shape : List ℕ) (j : ℕ) (hj : shape.length ≤ j + 1) :
    sval shape j = sval shape (j + 1) := by
  have h1 : min j (shape.length - 1) = min (j + 1) (shape.length - 1) := by omega
  rw [sval, sval, h1]

theorem dval_lt (shape : List ℕ) (k : ℕ) (hk : k < shape.length) :
    dval shape k = (shape.getD k 0 : ℤ) := if_pos hk

theorem dval_ge (shape : List ℕ) (k : ℕ) (hk : shape.length ≤ k) :
    dval shape k = 1 := if_neg (by omega)

theorem descStrideState_read (shape : List ℕ) (A j : ℕ) :
    (descStrideState shape A (j + 1))[A - (j + 1)]? = some (some (sval shape j)) := by
  unfold descStrideState
  rw [List.getElem?_append_right (by simp)]
  rw [range_map_reverse_succ]
  simp

theorem descStep_state (shape : List ℕ) (hn : 1 ≤ shape.length) (k : ℕ)
    (hk : k < atLeastDims shape.length) :
    descStep shape (atLeastDims shape.length) k
        (descDimState shape (atLeastDims shape.length) k)
        (descStrideState shape (atLeastDims shape.length) k)
      = some (descDimState shape (atLeastDims shape.length) (k + 1),
          descStrideState shape (atLeastDims shape.length) (k + 1)) := by
  set A := atLeastDims shape.length with hAdef
  have hAk : A - k = (A - k - 1) + 1 := by omega
  have hAk2 : A - (k + 1) = A - k - 1 := by omega
  have hdim : (descDimState shape A k).set (A - k - 1) (some (dval shape k))
      = descDimState shape A (k + 1) := by
    rw [descDimState, descDimState, hAk2, range_map_reverse_succ]
    rw [show List.replicate (A - k) (none : Option ℤ)
        = List.replicate ((A - k - 1) + 1) none from by rw [← hAk]]
    exact list_set_replicate_append _ _ _ _
  have hstr : ∀ v : ℤ, v = sval shape k →
      (descStrideState shape A k).set (A - 1 - k) (some v)
        = descStrideState shape A (k + 1) := by
    intro v hv
    rw [show A - 1 - k = A - k - 1 from by omega]
    rw [descStrideState, descStrideState, hAk2, range_map_reverse_succ, hv]
    rw [show List.replicate (A - k) (none : Option ℤ)
        = List.replicate ((A - k - 1) + 1) none from by rw [← hAk]]
    exact list_set_replicate_append _ _ _ _
  rcases k with _ | j
  · have h0 : (0 : ℕ) < shape.length := hn
    have hstep : descStep shape A 0 (descDimState shape A 0) (descStrideState shape A 0)
        = some ((descDimState shape A 0).set (A - 0 - 1) (some (shape.getD 0 0 : ℤ)),
            (descStrideState shape A 0).set (A - 1) (some 1)) := by
      rw [descStep, if_pos h0, if_pos rfl]
    rw [hstep]
    rw [show (some (shape.getD 0 0 : ℤ)) = some (dval shape 0) from by
      rw [dval_lt shape 0 h0]]
    rw [hdim]
    have h2 := hstr 1 (sval_zero shape).symm
    rw [Nat.sub_zero] at h2
    rw [h2]
  · have hread := descStrideState_read shape A j
    by_cases hkn : j + 1 < shape.length
    · have hstep : descStep shape A (j + 1) (descDimState shape A (j + 1))
          (descStrideState shape A (j + 1))
          = some ((descDimState shape A (j + 1)).set (A - (j + 1) - 1)
              (some (shape.getD (j + 1) 0 : ℤ)),
            (descStrideState shape A (j + 1)).set (A - 1 - (j + 1))
              (some ((shape.getD (j + 1 - 1) 0 : ℤ) * sval shape j))) := by
        rw [descStep, if_pos hkn, if_neg (Nat.succ_ne_zero j), hread]
      rw [hstep]
      rw [show (some (shape.getD (j + 1) 0 : ℤ)) = some (dval shape (j + 1)) from by
        rw [dval_lt shape (j + 1) hkn]]
      rw [hdim]
      have hval : (shape.getD (j + 1 - 1) 0 : ℤ) * sval shape j = sval shape (j + 1) := by
        simpa using sval_succ_lt shape j hkn
      rw [hstr _ hval]
    · have hstep : descStep shape A (j + 1) (descDimState shape A (j + 1))
          (descStrideState shape A (j + 1))
          = some ((descDimState shape A (j + 1)).set (A - (j + 1) - 1) (some 1),
            (descStrideState shape A (j + 1)).set (A - 1 - (j + 1))
              (some (sval shape j))) := by
        rw [descStep, if_neg hkn, hread]
      rw [hstep]
      rw [show (some (1 : ℤ)) = some (dval shape (j + 1)) from by
        rw [dval_ge shape (j + 1) (by omega)]]
      rw [hdim]
      rw [hstr _ (sval_succ_ge shape j (by omega))]

theorem descLoop_state (shape : List ℕ) (hn : 1 ≤ shape.length) :
    ∀ fuel k, fuel + k = atLeastDims shape.length →
      descLoop shape (atLeastDims shape.length) fuel k
          (descDimState shape (atLeastDims shape.length) k)
          (descStrideState shape (atLeastDims shape.length) k)
        = some (descDimState shape (atLeastDims shape.length) (atLeastDims shape.length),
            descStrideState shape (atLeastDims shape.length) (atLeastDims shape.length)) := by
  intro fuel
  induction fuel with
  | zero =>
    intro k hk
    have hkA : k = atLeastDims shape.length := by omega
    subst hkA
    rfl
  | succ fuel ih =>
    intro k hk
    rw [descLoop, descStep_state shape hn k (by omega)]
    exact ih (k + 1) (by omega)

theorem descDimState_full (shape : List ℕ) (A : ℕ) :
    descDimState shape A A = (((List.range A).map (dval shape)).reverse).map some := by
  rw [descDimState, Nat.sub_self]
  rw [show ((List.range A).map fun j => some (dval shape j))
      = ((List.range A).map (dval shape)).map some from (List.map_map some (dval shape) _).symm]
  rw [← List.map_reverse]
  rfl

theorem descStrideState_full (shape : List ℕ) (A : ℕ) :
    descStrideState shape A A = (((List.range A).map (sval shape)).reverse).map some := by
  rw [descStrideState, Nat.sub_self]
  rw [show ((List.range A).map fun j => some (sval shape j))
      = ((List.range A).map (sval shape)).map some from (List.map_map some (sval shape) _).symm]
  rw [← List.map_reverse]
  rfl

theorem range_map_dval (shape : List ℕ) (hn : 1 ≤ shape.length) :
    ((List.range (atLeastDims shape.length)).map (dval shape)).reverse = specDimA shape := by
  have hle := (atLeastDims_ge shape.length).1
  have hsplit : atLeastDims shape.length
      = shape.length + (atLeastDims shape.length - shape.length) := by omega
  rw [specDimA]
  rw [show (List.range (atLeastDims shape.length)).map (dval shape)
      = (List.range (shape.length + (atLeastDims shape.length - shape.length))).map
          (dval shape) from by rw [← hsplit]]
  rw [List.range_add, List.map_append, List.map_map]
  simp only [Function.comp_def]
  have h1 : (List.range shape.length).map (dval shape)
      = shape.map (fun d : ℕ => (d : ℤ)) := by
    rw [List.map_congr_left (fun a ha => dval_lt shape a (List.mem_range.mp ha))]
    exact range_map_getD shape 0 (fun d : ℕ => (d : ℤ))
  have h2 : (List.range (atLeastDims shape.length - shape.length)).map
        (fun x => dval shape (shape.length + x))
      = List.replicate (atLeastDims shape.length - shape.length) 1 := by
    rw [List.map_congr_left (fun a _ => dval_ge shape (shape.length + a) (by omega))]
    rw [List.map_const', List.length_range]
  rw [h1, h2, List.reverse_append, List.reverse_replicate]

theorem range_map_sval (shape : List ℕ) (hn : 1 ≤ shape.length) :
    ((List.range (atLeastDims shape.length)).map (sval shape)).reverse = specStrideA shape := by
  have hle := (atLeastDims_ge shape.length).1
  have hsplit : atLeastDims shape.length
      = shape.length + (atLeastDims shape.length - shape.length) := by omega
  rw [specStrideA]
  rw [show (List.range (atLeastDims shape.length)).map (sval shape)
      = (List.range (shape.length + (atLeastDims shape.length - shape.length))).map
          (sval shape) from by rw [← hsplit]]
  rw [List.range_add, List.map_append, List.map_map]
  simp only [Function.comp_def]
  have h1 : (List.range shape.length).map (sval shape)
      = (List.range shape.length).map (specStride shape) := by
    refine List.map_congr_left (fun a ha => ?_)
    have hal := List.mem_range.mp ha
    rw [sval, show min a (shape.length - 1) = a from by omega]
  have h2 : (List.range (atLeastDims shape.length - shape.length)).map
        (fun x => sval shape (shape.length + x))
      = List.replicate (atLeastDims shape.length - shape.length)
          (specStride shape (shape.length - 1)) := by
    have hv : ∀ a, a ∈ List.range (atLeastDims shape.length - shape.length) →
        sval shape (shape.length + a) = specStride shape (shape.length - 1) := by
      intro a _
      rw [sval, show min (shape.length + a) (shape.length - 1) = shape.length - 1 from by
        omega]
    rw [List.map_congr_left hv]
    rw [List.map_const', List.length_range]
  rw [h1, h2, List.reverse_append, List.reverse_replicate]

/-- Claim C4: for every shape with at least one dimension, the descriptor
computation of `Tensor::updateGPUTensorDescriptor` succeeds and produces the
`max(n,4)`-entry extent and stride arrays in reversed (slowest-varying
first) order: real dimensions carry extent `d_i` and stride
`d0 * ... * d(i-1)` (stride 1 for the fastest dimension), and every padded
slot carries extent 1 and the stride of logical dimension `n-1`. -/
theorem computeGPUTensorDescriptor_spec (shape : List ℕ) (hn : 1 ≤ shape.length) :
    computeGPUTensorDescriptor shape = some (specDimA shape, specStrideA shape) ∧
      (specDimA shape).length = atLeastDims shape.length ∧
      (specStrideA shape).length = atLeastDims shape.length := by
  have hle := (atLeastDims_ge shape.length).1
  refine ⟨?_, ?_, ?_⟩
  · have hloop := descLoop_state shape hn (atLeastDims shape.length) 0 (by omega)
    rw [show descDimState shape (atLeastDims shape.length) 0
        = List.replicate (atLeastDims shape.length) none from by simp [descDimState]] at hloop
    rw [show descStrideState shape (atLeastDims shape.length) 0
        = List.replicate (atLeastDims shape.length) none from by
      simp [descStrideState]] at hloop
    rw [descDimState_full, descStrideState_full, range_map_dval shape hn,
      range_map_sval shape hn] at hloop
    rw [computeGPUTensorDescriptor, hloop]
    simp [allSome_map_some]
  · rw [specDimA]
    simp only [List.length_append, List.length_replicate, List.length_reverse,
      List.length_map]
    omega
  · rw [specStrideA]
    simp only [List.length_append, List.length_replicate, List.length_reverse,
      List.length_map, List.length_range]
    omega

/-- Witness for C4 at shape `[2, 3]` (`d0 = 2` fastest-varying): four
dimensions, extents `[1, 1, 3, 2]` and strides `[2, 2, 2, 1]` in reversed
order. -/
theorem computeGPUTensorDescriptor_spec_witness :
    1 ≤ ([2, 3] : List ℕ).length ∧
      computeGPUTensorDescriptor [2, 3] = some ([1, 1, 3, 2], [2, 2, 2, 1]) := by
  refine ⟨by decide, ?_⟩
  rw [(computeGPUTensorDescriptor_spec [2, 3] (by decide)).1]
  decide

/-- Claim C10: on a 0-dimensional shape the descriptor loop's first
iteration reads `strideA[atLeastDims]`, i.e. index 4 of the 4-element
stride array; in the bounds-checked embedding this read yields `none`, so
the computation reaches its error branch — it is well-defined only for
shapes with at least one dimension. -/
theorem computeGPUTensorDescriptor_nil :
    computeGPUTensorDescriptor ([] : List ℕ) = none := rfl

/-! ## Tensor-object lemmas -/

theorem updateDescriptor_shape {α : Type} (t : Tensor α) :
    t.updateDescriptor.shape = t.shape := by
  rw [Tensor.updateDescriptor]
  by_cases hg : t.gpuTarget = true <;> simp [hg]

theorem updateDescriptor_data {α : Type} (t : Tensor α) :
    t.updateDescriptor.data = t.data := by
  rw [Tensor.updateDescriptor]
  by_cases hg : t.gpuTarget = true <;> simp [hg]

/-! ## C5: which operations resynchronise the descriptor -/

/-- Claim C5 counterexample: after a successful `init()` of a GPU tensor of
shape `[2,2]`, copy-constructing it yields a tensor whose (freshly created,
never set) descriptor does not describe its shape — copy-construction does
not recompute the layout descriptor. -/
theorem copyConstruct_descriptor_stale :
    ¬(Tensor.copyConstruct exampleHeapA exampleTensorA).2.descriptor
      = computeGPUTensorDescriptor
          (Tensor.copyConstruct exampleHeapA exampleTensorA).2.shape := by
  decide

/-- Claim C5 (amended): for a GPU-target tensor, `reshape` (when it
succeeds) and assignment recompute the layout descriptor from the current
shape; copy-construction does not — the copy carries a freshly created,
unset descriptor regardless of its shape. -/
theorem descriptor_update_ops {α : Type} (h : BlobHeap α) (t src : Tensor α) (s : List ℕ) :
    ((t.reshape s).2.descriptor
        = if Shape.size s = Shape.size t.shape ∧ t.gpuTarget = true
          then computeGPUTensorDescriptor s else t.descriptor) ∧
      ((Tensor.assign h t src).2.descriptor
        = if t.gpuTarget = true then computeGPUTensorDescriptor src.shape
          else t.descriptor) ∧
      (Tensor.copyConstruct h t).2.descriptor = none := by
  refine ⟨?_, ?_, rfl⟩
  · rw [Tensor.reshape]
    by_cases hsz : Shape.size s = Shape.size t.shape
    · rw [if_pos hsz, Tensor.updateDescriptor]
      by_cases hg : t.gpuTarget = true <;> simp [hg, hsz]
    · rw [if_neg hsz, if_neg (by simp [hsz])]
  · rw [Tensor.assign, Tensor.updateDescriptor]
    by_cases hg : t.gpuTarget = true <;> simp [hg]

/-! ## C6: reshape succeeds exactly on matching sizes and fails harmlessly -/

/-- Claim C6: `reshape(newShape)` returns true iff `newShape.size()` equals
the current `size()`; on failure the tensor is completely unchanged, and
reshaping back to the original shape afterwards succeeds and restores the
original shape (round-trip usability). -/
theorem reshape_size_iff {α : Type} (t : Tensor α) (s : List ℕ) :
    ((t.reshape s).1 = true ↔ Shape.size s = Shape.size t.shape) ∧
      ((t.reshape s).1 = false →
        (t.reshape s).2 = t ∧
          ((t.reshape s).2.reshape t.shape).1 = true ∧
          ((t.reshape s).2.reshape t.shape).2.shape = t.shape) := by
  by_cases hsz : Shape.size s = Shape.size t.shape
  · have hres : (t.reshape s).1 = true := by
      rw [Tensor.reshape, if_pos hsz]
    refine ⟨⟨fun _ => hsz, fun _ => hres⟩, fun hfalse => ?_⟩
    rw [hres] at hfalse
    exact absurd hfalse (by simp)
  · have hres : t.reshape s = (false, t) := by
      rw [Tensor.reshape, if_neg hsz]
    rw [hres]
    refine ⟨⟨fun hcontr => absurd hcontr (by simp), fun hcontr => absurd hcontr hsz⟩,
      fun _ => ⟨rfl, ?_, ?_⟩⟩
    · rw [Tensor.reshape, if_pos rfl]
    · rw [Tensor.reshape, if_pos rfl]
      exact updateDescriptor_shape _

/-- Witness for C6: a `[2,3]`-shaped tensor refuses `reshape([5])` and is
left unchanged, while `reshape([6])` succeeds. -/
theorem reshape_size_iff_witness :
    ((Tensor.make (α := ℕ) [2, 3] "a" true).reshape [5]).2
        = Tensor.make (α := ℕ) [2, 3] "a" true ∧
      ((Tensor.make (α := ℕ) [2, 3] "a" true).reshape [6]).1 = true := by
  have h5 := reshape_size_iff (Tensor.make (α := ℕ) [2, 3] "a" true) [5]
  have h6 := reshape_size_iff (Tensor.make (α := ℕ) [2, 3] "a" true) [6]
  exact ⟨(h5.2 (by decide)).1, h6.1.mpr (by decide)⟩

/-! ## Blob-heap computation lemmas -/

theorem cellAt_eq {α : Type} (h : BlobHeap α) (cid : ℕ) (c : BlobCell α)
    (hc : h.cells[cid]? = some (some c)) :
    h.cellAt ⟨some cid⟩ = some c := by
  show (h.cells[cid]?).bind (fun oc => oc) = some c
  rw [hc]
  rfl

theorem release_eq {α : Type} (h : BlobHeap α) (cid : ℕ) (c : BlobCell α)
    (hc : h.cells[cid]? = some (some c)) :
    h.release ⟨some cid⟩
      = if c.refCount ≤ 1 then ⟨h.cells.set cid none⟩
        else ⟨h.cells.set cid (some ⟨c.refCount - 1, c.data⟩)⟩ := by
  rw [BlobHeap.release, cellAt_eq h cid c hc]

theorem retain_eq {α : Type} (h : BlobHeap α) (cid : ℕ) (c : BlobCell α)
    (hc : h.cells[cid]? = some (some c)) :
    h.retain ⟨some cid⟩ = ⟨h.cells.set cid (some ⟨c.refCount + 1, c.data⟩)⟩ := by
  rw [BlobHeap.retain, cellAt_eq h cid c hc]

theorem readCell_eq {α : Type} (h : BlobHeap α) (cid : ℕ) (c : BlobCell α) (i : ℕ)
    (hc : h.cells[cid]? = some (some c)) :
    h.readCell ⟨some cid⟩ i = (c.data[i]?).bind fun ov => ov := by
  rw [BlobHeap.readCell, cellAt_eq h cid c hc]

theorem writeCell_eq {α : Type} (h : BlobHeap α) (cid : ℕ) (c : BlobCell α) (i : ℕ) (v : α)
    (hc : h.cells[cid]? = some (some c)) :
    h.writeCell ⟨some cid⟩ i v
      = ⟨h.cells.set cid (some ⟨c.refCount, c.data.set i (some v)⟩)⟩ := by
  rw [BlobHeap.writeCell, cellAt_eq h cid c hc]

theorem writeInitList_eq {α : Type} (h : BlobHeap α) (cid : ℕ) (c : BlobCell α)
    (vals : List α) (hc : h.cells[cid]? = some (some c)) :
    h.writeInitList ⟨some cid⟩ vals
      = ⟨h.cells.set cid (some ⟨c.refCount, vals.map some ++ c.data.drop vals.length⟩)⟩ := by
  rw [BlobHeap.writeInitList, cellAt_eq h cid c hc]

/-! ## C7: `init(initList)` copies the prefix of the literal values -/

/-- Claim C7 counterexample: for a tensor of shape `[0]` (so `size() = 0`)
and literal list `[7]` — which satisfies `len(values) ≥ shape.size()` — the
claim asserts `init(values)` succeeds, but `init()` returns false on a
size-0 shape (allocation is never attempted), so `init(values)` returns
false. -/
theorem initWith_zero_size_fails :
    (Tensor.initWith (⟨[]⟩ : BlobHeap ℕ) (Tensor.make [0] "t" false) true 4 [7]).2
      = false := by
  decide

set_option maxHeartbeats 1000000 in
/-- Claim C7 (amended): provided `shape.size() ≥ 1` (so that `init()` can
succeed at all) and the underlying allocation succeeds, `init(values)` with
`len(values) ≥ size()` returns true, and afterwards every flat index
`i < size()` reads back `values[i]`; literal values beyond `size()` are
discarded and do not affect the stored elements. -/
theorem initWith_reads_back {α : Type} (h : BlobHeap α) (t : Tensor α) (elemSize : ℕ)
    (values : List α) (hsz : Shape.size t.shape ≠ 0) (helem : 0 < elemSize)
    (hlen : Shape.size t.shape ≤ values.length) :
    (Tensor.initWith h t true elemSize values).2 = true ∧
      ∀ i, i < Shape.size t.shape →
        Tensor.get (Tensor.initWith h t true elemSize values).1.1
          (Tensor.initWith h t true elemSize values).1.2 i = values[i]? := by
  have halloc : blobAlloc h t.data true (Shape.size t.shape * elemSize) (Shape.size t.shape)
      = (⟨(BlobHeap.release h t.data).cells
            ++ [some ⟨1, List.replicate (Shape.size t.shape) none⟩]⟩,
          ⟨some (BlobHeap.release h t.data).cells.length⟩, true) := by
    rw [blobAlloc, BlobHeap.allocCell, if_pos ⟨Nat.mul_ne_zero hsz (by omega), rfl⟩]
  have hinit : Tensor.init h t true elemSize
      = ((⟨(BlobHeap.release h t.data).cells
            ++ [some ⟨1, List.replicate (Shape.size t.shape) none⟩]⟩,
          Tensor.updateDescriptor
            { t with data := ⟨some (BlobHeap.release h t.data).cells.length⟩ }),
        true) := by
    rw [Tensor.init, if_pos hsz, halloc]
  have htshape : (Tensor.updateDescriptor
      ({ t with data := ⟨some (BlobHeap.release h t.data).cells.length⟩ } : Tensor α)).shape
      = t.shape :=
    updateDescriptor_shape
      ({ t with data := ⟨some (BlobHeap.release h t.data).cells.length⟩ } : Tensor α)
  have htdata : (Tensor.updateDescriptor
      ({ t with data := ⟨some (BlobHeap.release h t.data).cells.length⟩ } : Tensor α)).data
      = ⟨some (BlobHeap.release h t.data).cells.length⟩ :=
    updateDescriptor_data
      ({ t with data := ⟨some (BlobHeap.release h t.data).cells.length⟩ } : Tensor α)
  have hcount : (if values.length > Shape.size t.shape
      then Shape.size t.shape else values.length) = Shape.size t.shape := by
    split <;> omega
  have hres : Tensor.initWith h t true elemSize values
      = ((BlobHeap.writeInitList
            ⟨(BlobHeap.release h t.data).cells
              ++ [some ⟨1, List.replicate (Shape.size t.shape) none⟩]⟩
            ⟨some (BlobHeap.release h t.data).cells.length⟩
            (values.take (Shape.size t.shape)),
          (Tensor.updateDescriptor
            { t with data := ⟨some (BlobHeap.release h t.data).cells.length⟩
            }).updateDescriptor),
        true) := by
    rw [Tensor.initWith, hinit]
    simp [htshape, htdata, hcount]
  have hvlen : (values.take (Shape.size t.shape)).length = Shape.size t.shape := by
    rw [List.length_take]
    omega
  have hcell : ((BlobHeap.release h t.data).cells
        ++ [some ⟨1, List.replicate (Shape.size t.shape) (none : Option α)⟩])[
          (BlobHeap.release h t.data).cells.length]?
      = some (some ⟨1, List.replicate (Shape.size t.shape) none⟩) :=
    List.getElem?_concat_length _ _
  have hwrite : BlobHeap.writeInitList
        (⟨(BlobHeap.release h t.data).cells
          ++ [some ⟨1, List.replicate (Shape.size t.shape) none⟩]⟩ : BlobHeap α)
        ⟨some (BlobHeap.release h t.data).cells.length⟩
        (values.take (Shape.size t.shape))
      = (⟨((BlobHeap.release h t.data).cells
            ++ [some (BlobCell.mk 1 (List.replicate (Shape.size t.shape) (none : Option α)))]).set
          (BlobHeap.release h t.data).cells.length
          (some (BlobCell.mk 1 ((values.take (Shape.size t.shape)).map some)))⟩
        : BlobHeap α) := by
    rw [writeInitList_eq _ _ _ _ hcell]
    rw [hvlen]
    rw [List.drop_eq_nil_of_le (by rw [List.length_replicate])]
    rw [List.append_nil]
  refine ⟨by rw [hres], fun i hi => ?_⟩
  have hfst : (Tensor.initWith h t true elemSize values).1.1
      = BlobHeap.writeInitList
        (⟨(BlobHeap.release h t.data).cells
          ++ [some ⟨1, List.replicate (Shape.size t.shape) none⟩]⟩ : BlobHeap α)
        ⟨some (BlobHeap.release h t.data).cells.length⟩
        (values.take (Shape.size t.shape)) := by
    rw [hres]
  have hsnd : (Tensor.initWith h t true elemSize values).1.2
      = (Tensor.updateDescriptor
        ({ t with data := ⟨some (BlobHeap.release h t.data).cells.length⟩ } : Tensor α)).updateDescriptor := by
    rw [hres]
  rw [hfst, hsnd]
  rw [Tensor.get, hwrite]
  rw [show ((Tensor.updateDescriptor
      ({ t with data := ⟨some (BlobHeap.release h t.data).cells.length⟩ } : Tensor α)
      ).updateDescriptor).data
      = (⟨some (BlobHeap.release h t.data).cells.length⟩ : ReferenceCountedBlob) from by
    rw [updateDescriptor_data, htdata]]
  have hsetcell : (((BlobHeap.release h t.data).cells
        ++ [some (BlobCell.mk 1 (List.replicate (Shape.size t.shape) (none : Option α)))]).set
          (BlobHeap.release h t.data).cells.length
          (some (BlobCell.mk 1 ((values.take (Shape.size t.shape)).map some))))[
          (BlobHeap.release h t.data).cells.length]?
      = some (some (BlobCell.mk 1 ((values.take (Shape.size t.shape)).map some))) :=
    List.getElem?_set_self (by simp)
  rw [readCell_eq _ _ _ _ hsetcell]
  have hdi : ((values.take (Shape.size t.shape)).map some)[i]? = some (some values[i]) := by
    rw [List.getElem?_map, List.getElem?_take]
    rw [if_pos hi, List.getElem?_eq_getElem (by omega)]
    rfl
  rw [hdi]
  rw [List.getElem?_eq_getElem (show i < values.length from by omega)]
  rfl

/-- Witness for C7 (amended): shape `[3]`, literal values `[10, 11, 12, 13]`
— the init succeeds and positions 0..2 read back `10, 11, 12`, the surplus
`13` being dropped. -/
theorem initWith_reads_back_witness :
    (Tensor.initWith (⟨[]⟩ : BlobHeap ℕ) (Tensor.make [3] "t" false) true 4
        [10, 11, 12, 13]).2 = true ∧
      Tensor.get (Tensor.initWith (⟨[]⟩ : BlobHeap ℕ) (Tensor.make [3] "t" false) true 4
          [10, 11, 12, 13]).1.1
        (Tensor.initWith (⟨[]⟩ : BlobHeap ℕ) (Tensor.make [3] "t" false) true 4
          [10, 11, 12, 13]).1.2 2 = some 12 := by
  have h := initWith_reads_back (⟨[]⟩ : BlobHeap ℕ) (Tensor.make [3] "t" false) 4
    [10, 11, 12, 13] (by decide) (by decide) (by decide)
  exact ⟨h.1, (h.2 2 (by decide)).trans (by decide)⟩

/-! ## C8: when `init()` reports success -/

/-- Claim C8: `init()` returns false exactly when `shape.size()` is 0 (the
allocation is then never attempted) or the underlying allocation of
`shape.size() * elementSize` bytes fails, and true otherwise. -/
theorem init_result_iff {α : Type} (h : BlobHeap α) (t : Tensor α) (allocOk : Bool)
    (elemSize : ℕ) (helem : 0 < elemSize) :
    (Tensor.init h t allocOk elemSize).2 = true
      ↔ (Shape.size t.shape ≠ 0 ∧ allocOk = true) := by
  by_cases hsz : Shape.size t.shape ≠ 0
  · have hinit : (Tensor.init h t allocOk elemSize).2
        = (BlobHeap.allocCell (h.release t.data) allocOk
            (Shape.size t.shape * elemSize) (Shape.size t.shape)).2.2 := by
      rw [Tensor.init, if_pos hsz, blobAlloc]
    rw [hinit, BlobHeap.allocCell]
    by_cases hok : allocOk = true
    · rw [if_pos ⟨Nat.mul_ne_zero hsz (by omega), hok⟩]
      simp [hsz, hok]
    · rw [if_neg fun hcon => hok hcon.2]
      simp [hok]
  · have hinit : (Tensor.init h t allocOk elemSize).2 = false := by
      rw [Tensor.init, if_neg hsz]
    rw [hinit]
    simp [hsz]

/-- Witness for C8: a `[2]`-shaped tensor with a succeeding allocator
initialises successfully, and the reverse direction of the iff holds at the
same input. -/
theorem init_result_iff_witness :
    (0 : ℕ) < 4 ∧
      ((Tensor.init (⟨[]⟩ : BlobHeap ℕ) (Tensor.make [2] "x" false) true 4).2 = true
        ↔ (Shape.size (Tensor.make (α := ℕ) [2] "x" false).shape ≠ 0 ∧ true = true)) :=
  ⟨by decide,
    init_result_iff (⟨[]⟩ : BlobHeap ℕ) (Tensor.make [2] "x" false) true 4 (by decide)⟩

/-! ## C9: copy-constructed tensors alias the same reference-counted storage -/

/-- Claim C9: starting from an empty heap, initialise tensor `A` of shape
`[n]`, copy-construct `B` from `A` (so `B` holds the same blob handle and
the cell's reference count rises to 2), and write `v` through `A[i]`: the
write is observable through `B[i]`; after `clear()` on `A` the reference
count drops to 1 but the cell stays alive, so `B[i]` still reads `v`. -/
theorem tensor_alias_refcount {α : Type} (n i : ℕ) (v : α) (nm : String) (g : Bool)
    (hi : i < Shape.size [n]) :
    let r1 := Tensor.init (⟨[]⟩ : BlobHeap α) (Tensor.make [n] nm g) true 1
    let r2 := Tensor.copyConstruct r1.1.1 r1.1.2
    let h3 := Tensor.put r2.1 r1.1.2 i v
    r2.2.data = r1.1.2.data ∧
      Tensor.get h3 r2.2 i = some v ∧
      Tensor.get (Tensor.clear h3 r1.1.2).1 r2.2 i = some v := by
  intro r1 r2 h3
  have hszn : Shape.size [n] = n := by simp [Shape.size]
  have hilt : i < n := by rwa [hszn] at hi
  have hn0 : Shape.size (Tensor.make (α := α) [n] nm g).shape ≠ 0 := by
    show Shape.size [n] ≠ 0
    rw [hszn]
    omega
  have h1eq : r1 = ((⟨[some ⟨1, List.replicate n none⟩]⟩,
      Tensor.updateDescriptor
        ({ Tensor.make (α := α) [n] nm g with data := ⟨some 0⟩ } : Tensor α)), true) := by
    show Tensor.init (⟨[]⟩ : BlobHeap α) (Tensor.make [n] nm g) true 1 = _
    rw [Tensor.init, if_pos hn0, blobAlloc]
    rw [show BlobHeap.release (⟨[]⟩ : BlobHeap α) (Tensor.make (α := α) [n] nm g).data
        = (⟨[]⟩ : BlobHeap α) from rfl]
    rw [BlobHeap.allocCell, if_pos ⟨(by
      show Shape.size [n] * 1 ≠ 0
      rw [hszn]
      omega), rfl⟩]
    rw [show Shape.size (Tensor.make (α := α) [n] nm g).shape = n from hszn]
    rfl
  have hA : r1.1.2 = Tensor.updateDescriptor
      ({ Tensor.make (α := α) [n] nm g with data := ⟨some 0⟩ } : Tensor α) := by
    rw [h1eq]
  have hAdata : r1.1.2.data = (⟨some 0⟩ : ReferenceCountedBlob) := by
    rw [hA, updateDescriptor_data]
  have hH1 : r1.1.1 = (⟨[some ⟨1, List.replicate n none⟩]⟩ : BlobHeap α) := by
    rw [h1eq]
  have hH2 : r2.1 = (⟨[some ⟨2, List.replicate n none⟩]⟩ : BlobHeap α) := by
    show (r1.1.1).retain r1.1.2.data = _
    rw [hH1, hAdata]
    rw [retain_eq (⟨[some ⟨1, List.replicate n none⟩]⟩ : BlobHeap α) 0
      ⟨1, List.replicate n none⟩ rfl]
    rfl
  have hBdata : r2.2.data = (⟨some 0⟩ : ReferenceCountedBlob) := by
    show r1.1.2.data = _
    exact hAdata
  have hH3 : h3 = (⟨[some ⟨2, (List.replicate n none).set i (some v)⟩]⟩ : BlobHeap α) := by
    show (r2.1).writeCell r1.1.2.data i v = _
    rw [hH2, hAdata]
    rw [writeCell_eq (⟨[some ⟨2, List.replicate n none⟩]⟩ : BlobHeap α) 0
      ⟨2, List.replicate n none⟩ i v rfl]
    rfl
  have hread1 : Tensor.get h3 r2.2 i = some v := by
    rw [Tensor.get, hH3, hBdata]
    rw [readCell_eq (⟨[some ⟨2, (List.replicate n none).set i (some v)⟩]⟩ : BlobHeap α) 0
      ⟨2, (List.replicate n none).set i (some v)⟩ i rfl]
    show (((List.replicate n (none : Option α)).set i (some v))[i]?).bind (fun ov => ov)
      = some v
    rw [List.getElem?_set_self (by simpa using hilt)]
    rfl
  have hH4 : (Tensor.clear h3 r1.1.2).1
      = (⟨[some ⟨1, (List.replicate n none).set i (some v)⟩]⟩ : BlobHeap α) := by
    show (h3).release r1.1.2.data = _
    rw [hH3, hAdata]
    rw [release_eq (⟨[some ⟨2, (List.replicate n none).set i (some v)⟩]⟩ : BlobHeap α) 0
      ⟨2, (List.replicate n none).set i (some v)⟩ rfl]
    rw [if_neg (by
      show ¬((2 : ℕ) ≤ 1)
      omega)]
    rfl
  have hread2 : Tensor.get (Tensor.clear h3 r1.1.2).1 r2.2 i = some v := by
    rw [Tensor.get, hH4, hBdata]
    rw [readCell_eq (⟨[some ⟨1, (List.replicate n none).set i (some v)⟩]⟩ : BlobHeap α) 0
      ⟨1, (List.replicate n none).set i (some v)⟩ i rfl]
    show (((List.replicate n (none : Option α)).set i (some v))[i]?).bind (fun ov => ov)
      = some v
    rw [List.getElem?_set_self (by simpa using hilt)]
    rfl
  exact ⟨rfl, hread1, hread2⟩

/-- Witness for C9 at `n = 2`, `i = 0`, `v = 7` over a CPU-target `ℕ`
tensor. -/
theorem tensor_alias_refcount_witness :
    0 < Shape.size [2] ∧
      (let r1 := Tensor.init (⟨[]⟩ : BlobHeap ℕ) (Tensor.make [2] "a" false) true 1
       let r2 := Tensor.copyConstruct r1.1.1 r1.1.2
       let h3 := Tensor.put r2.1 r1.1.2 0 7
       r2.2.data = r1.1.2.data ∧
         Tensor.get h3 r2.2 0 = some 7 ∧
         Tensor.get (Tensor.clear h3 r1.1.2).1 r2.2 0 = some 7) :=
  ⟨by decide, tensor_alias_refcount 2 0 7 "a" false (by decide)⟩

end FreeWill
